import Mathlib

/-!
Verification of the color quantization and dithering engine of
src/color_mapping.py (class SevenColorMapper and helpers).

The embedding below translates the Python source into Lean definitions:

- machine arithmetic on 8-bit channels is modelled with Nat,
- the float working buffer of the ditherer is modelled with Rat,
- the real-valued LAB conversion and Delta E metrics are modelled over the
  real numbers,
- the nearest-color scans are parametrized by the LAB type and by the
  distance functions, because the scan logic (fold with strict-minimum
  update starting from positive infinity) is independent of the metric;
  the float infinity initializer of the source is modelled with WithTop.

Line numbers in the comments refer to src/color_mapping.py.
-/

namespace ColorMapping

/-- RGB triple, one Nat per 8-bit channel. -/
abbrev RGB : Type := ℕ × ℕ × ℕ

/-- Result triple of the matcher: color name, palette RGB, hardware index
(source: return value of find_closest_eink_color, lines 163-181). -/
abbrev Entry : Type := String × RGB × ℕ

/-- EINK_COLORS (lines 29-37), in declaration order of the Python dict. -/
def einkColors : List (String × RGB) :=
  [("BLACK", (0, 0, 0)),
   ("WHITE", (255, 255, 255)),
   ("GREEN", (0, 255, 0)),
   ("BLUE", (0, 0, 255)),
   ("RED", (255, 0, 0)),
   ("YELLOW", (255, 255, 0)),
   ("ORANGE", (255, 165, 0))]

/-- COLOR_INDICES (lines 40-48). -/
def colorIndices : List (String × ℕ) :=
  [("BLACK", 0), ("WHITE", 1), ("GREEN", 2), ("BLUE", 3),
   ("RED", 4), ("YELLOW", 5), ("ORANGE", 6)]

/-- Dict lookup COLOR_INDICES[name]; every name used by the scans below is a
key of the dict, so the default value of getD is never produced. -/
def colorIndex (n : String) : ℕ := (colorIndices.lookup n).getD 0

/-- The palette RGB values, in order. -/
def paletteRGBs : List RGB := einkColors.map (fun p => p.2)

section Matcher

variable {L D : Type} [LinearOrder D]

/-- eink_color_list built in __init__ (lines 53-59): triples
(name, rgb, lab) with lab computed once per palette color. -/
def einkColorList (toLab : RGB → L) : List (String × RGB × L) :=
  einkColors.map (fun p => (p.1, p.2, toLab p.2))

/-- One iteration of the scan loop of _find_closest_eink_color_direct
(lines 192-196): keep the entry whose distance is strictly below the
running minimum, which starts at float infinity (modelled by WithTop). -/
def scanStep (delta : L → D) (acc : WithTop D × Option Entry)
    (ent : String × RGB × L) : WithTop D × Option Entry :=
  if (delta ent.2.2 : WithTop D) < acc.1 then
    ((delta ent.2.2 : WithTop D), some (ent.1, ent.2.1, colorIndex ent.1))
  else acc

/-- _find_closest_eink_color_direct (lines 183-198): convert the target to
LAB, scan all palette entries tracking the strict minimum distance.
The metric is chosen by the use_ciede2000 flag (default True). -/
def findClosestDirect (toLab : RGB → L) (d2000 d76 : L → L → D)
    (rgb : RGB) (useC : Bool) : Option Entry :=
  let targetLab := toLab rgb
  let delta := if useC then d2000 else d76
  ((einkColorList toLab).foldl (scanStep (delta targetLab))
    ((⊤ : WithTop D), none)).2

/-- The loop bounds of _build_color_lookup_table (lines 211-213):
range(0, 256, 4) for each channel. -/
def cacheSteps : List ℕ := (List.range 64).map (fun i => i * 4)

/-- The key set of the _color_cache dict after _build_color_lookup_table
(lines 200-221): every (r, g, b) with all channels drawn from
range(0, 256, 4). The stored value for each key is the direct match for
that key with the default metric flag (line 216), see findClosest below. -/
def cacheKeys : List RGB :=
  cacheSteps.flatMap (fun r =>
    cacheSteps.flatMap (fun g =>
      cacheSteps.map (fun b => (r, g, b))))

/-- The cache key computed in find_closest_eink_color (lines 231-234):
each channel quantized down with (c // 4) * 4. -/
def alignKey (rgb : RGB) : RGB :=
  (rgb.1 / 4 * 4, rgb.2.1 / 4 * 4, rgb.2.2 / 4 * 4)

/-- find_closest_eink_color (lines 223-240, the second definition, which
shadows the first one of lines 163-181 at class creation time): look the
quantized key up in the cache; the cached value is the direct match for the
key computed with the default flag (line 216); on a miss fall back to the
direct computation on the unquantized input with the given flag. -/
def findClosest (toLab : RGB → L) (d2000 d76 : L → L → D)
    (rgb : RGB) (useC : Bool) : Option Entry :=
  let key := alignKey rgb
  if key ∈ cacheKeys then findClosestDirect toLab d2000 d76 key true
  else findClosestDirect toLab d2000 d76 rgb useC

end Matcher

theorem mem_cacheSteps_iff (n : ℕ) : n ∈ cacheSteps ↔ n % 4 = 0 ∧ n < 256 := by
  simp only [cacheSteps, List.mem_map, List.mem_range]
  constructor
  · rintro ⟨i, hi, rfl⟩
    omega
  · rintro ⟨h1, h2⟩
    exact ⟨n / 4, by omega, by omega⟩

theorem mem_cacheKeys_iff (r g b : ℕ) :
    (r, g, b) ∈ cacheKeys ↔ (r % 4 = 0 ∧ r < 256) ∧ (g % 4 = 0 ∧ g < 256)
      ∧ (b % 4 = 0 ∧ b < 256) := by
  simp only [cacheKeys, List.mem_flatMap, List.mem_map, Prod.mk.injEq]
  constructor
  · rintro ⟨r', hr, g', hg, b', hb, rfl, rfl, rfl⟩
    exact ⟨(mem_cacheSteps_iff r').1 hr, (mem_cacheSteps_iff g').1 hg,
      (mem_cacheSteps_iff b').1 hb⟩
  · rintro ⟨hr, hg, hb⟩
    exact ⟨r, (mem_cacheSteps_iff r).2 hr, g, (mem_cacheSteps_iff g).2 hg,
      b, (mem_cacheSteps_iff b).2 hb, rfl, rfl, rfl⟩

/-- C6: on a grid-aligned input (all channels multiples of the cache step 4,
within the 8-bit range) the quantized cache key equals the input itself, the
key is present in the eagerly built table, and the cached path returns
exactly the value the direct scan computes for that input. Stated for every
LAB carrier and every pair of distance functions, hence in particular for
the concrete LAB conversion and metrics of the source. -/
theorem C6_cached_matches_direct_on_grid_aligned {L D : Type} [LinearOrder D]
    (toLab : RGB → L) (d2000 d76 : L → L → D) (r g b : ℕ)
    (hr4 : r % 4 = 0) (hg4 : g % 4 = 0) (hb4 : b % 4 = 0)
    (hr : r ≤ 255) (hg : g ≤ 255) (hb : b ≤ 255) :
    findClosest toLab d2000 d76 (r, g, b) true
      = findClosestDirect toLab d2000 d76 (r, g, b) true := by
  have halign : alignKey (r, g, b) = (r, g, b) := by
    show (r / 4 * 4, g / 4 * 4, b / 4 * 4) = (r, g, b)
    have e1 : r / 4 * 4 = r := by omega
    have e2 : g / 4 * 4 = g := by omega
    have e3 : b / 4 * 4 = b := by omega
    rw [e1, e2, e3]
  have hmem : (r, g, b) ∈ cacheKeys := by
    rw [mem_cacheKeys_iff]
    exact ⟨⟨hr4, by omega⟩, ⟨hg4, by omega⟩, ⟨hb4, by omega⟩⟩
  simp only [findClosest, halign, if_pos hmem]

/-- Closed instance of C6 at the grid-aligned input (8, 0, 252). -/
theorem C6_cached_matches_direct_on_grid_aligned_witness :
    8 % 4 = 0 ∧ 8 ≤ 255 ∧
    findClosest (fun rgb => rgb) (fun _ _ => (0 : ℚ)) (fun _ _ => (0 : ℚ))
        (8, 0, 252) true
      = findClosestDirect (fun rgb => rgb) (fun _ _ => (0 : ℚ))
        (fun _ _ => (0 : ℚ)) (8, 0, 252) true :=
  ⟨by decide, by decide,
    C6_cached_matches_direct_on_grid_aligned (fun rgb => rgb)
      (fun _ _ => (0 : ℚ)) (fun _ _ => (0 : ℚ)) 8 0 252
      (by decide) (by decide) (by decide) (by decide) (by decide) (by decide)⟩

/-- C10: for every valid 8-bit input the quantized cache key is present in
the eagerly built lookup table, so the direct-computation fallback branch of
find_closest_eink_color is unreachable, and consequently the use_ciede2000
flag never influences the result of the public matcher. -/
theorem C10_cache_hit_always_and_metric_flag_irrelevant {L D : Type}
    [LinearOrder D] (toLab : RGB → L) (d2000 d76 : L → L → D) (r g b : ℕ)
    (hr : r ≤ 255) (hg : g ≤ 255) (hb : b ≤ 255) :
    alignKey (r, g, b) ∈ cacheKeys ∧
    findClosest toLab d2000 d76 (r, g, b) true
      = findClosest toLab d2000 d76 (r, g, b) false := by
  have hmem : alignKey (r, g, b) ∈ cacheKeys := by
    have halign : alignKey (r, g, b) = (r / 4 * 4, g / 4 * 4, b / 4 * 4) := rfl
    rw [halign, mem_cacheKeys_iff]
    refine ⟨⟨?_, ?_⟩, ⟨?_, ?_⟩, ⟨?_, ?_⟩⟩ <;> omega
  exact ⟨hmem, by simp only [findClosest, if_pos hmem]⟩

/-- Closed instance of C10 at the non-aligned input (5, 103, 254). -/
theorem C10_cache_hit_always_and_metric_flag_irrelevant_witness :
    5 ≤ 255 ∧ 103 ≤ 255 ∧ 254 ≤ 255 ∧
    (alignKey (5, 103, 254) ∈ cacheKeys ∧
      findClosest (fun rgb => rgb) (fun _ _ => (0 : ℚ)) (fun _ _ => (1 : ℚ))
          (5, 103, 254) true
        = findClosest (fun rgb => rgb) (fun _ _ => (0 : ℚ))
          (fun _ _ => (1 : ℚ)) (5, 103, 254) false) :=
  ⟨by decide, by decide, by decide,
    C10_cache_hit_always_and_metric_flag_irrelevant (fun rgb => rgb)
      (fun _ _ => (0 : ℚ)) (fun _ _ => (1 : ℚ)) 5 103 254
      (by decide) (by decide) (by decide)⟩

/-! Color space conversion (lines 77-117) and the two Delta E metrics
(lines 119-161), over the real numbers. -/

/-- The sRGB gamma decoding helper gamma_correct (lines 86-90). -/
noncomputable def gamma_correct (c : ℝ) : ℝ :=
  if c > 0.04045 then ((c + 0.055) / 1.055) ^ (2.4 : ℝ) else c / 12.92

/-- The CIE nonlinearity f (lines 105-109). -/
noncomputable def labF (t : ℝ) : ℝ :=
  if t > 0.008856 then t ^ ((1 : ℝ) / 3) else 7.787 * t + 16 / 116

/-- _rgb_to_lab (lines 77-117): normalize to the unit interval, gamma
decode, multiply by the sRGB matrix, divide by the D65 white point, apply
the CIE nonlinearity, combine into (L, a, b). -/
noncomputable def rgb_to_lab (rgb : RGB) : ℝ × ℝ × ℝ :=
  let r := (rgb.1 : ℝ) / 255.0
  let g := (rgb.2.1 : ℝ) / 255.0
  let b := (rgb.2.2 : ℝ) / 255.0
  let r2 := gamma_correct r
  let g2 := gamma_correct g
  let b2 := gamma_correct b
  let x := r2 * 0.4124564 + g2 * 0.3575761 + b2 * 0.1804375
  let y := r2 * 0.2126729 + g2 * 0.7151522 + b2 * 0.0721750
  let z := r2 * 0.0193339 + g2 * 0.1191920 + b2 * 0.9503041
  let xn := x / 0.95047
  let yn := y / 1.00000
  let zn := z / 1.08883
  let fx := labF xn
  let fy := labF yn
  let fz := labF zn
  (116 * fy - 16, 500 * (fx - fy), 200 * (fy - fz))

/-- _delta_e_cie76 (lines 119-128): Euclidean distance in LAB. -/
noncomputable def delta_e_cie76 (lab1 lab2 : ℝ × ℝ × ℝ) : ℝ :=
  Real.sqrt ((lab2.1 - lab1.1) ^ 2 + (lab2.2.1 - lab1.2.1) ^ 2
    + (lab2.2.2 - lab1.2.2) ^ 2)

/-- _delta_e_ciede2000 (lines 130-161): the simplified variant used by the
source, with the unit weighting factors kL = kC = kH = 1.0 of line 156. -/
noncomputable def delta_e_ciede2000 (lab1 lab2 : ℝ × ℝ × ℝ) : ℝ :=
  let L1 := lab1.1
  let a1 := lab1.2.1
  let b1 := lab1.2.2
  let L2 := lab2.1
  let a2 := lab2.2.1
  let b2 := lab2.2.2
  let C1 := Real.sqrt (a1 ^ 2 + b1 ^ 2)
  let C2 := Real.sqrt (a2 ^ 2 + b2 ^ 2)
  let dL := L2 - L1
  let dC := C2 - C1
  let da := a2 - a1
  let db := b2 - b1
  let dH2 := da ^ 2 + db ^ 2 - dC ^ 2
  let dH := Real.sqrt (max 0 dH2)
  let kL : ℝ := 1.0
  let kC : ℝ := 1.0
  let kH : ℝ := 1.0
  Real.sqrt ((dL / kL) ^ 2 + (dC / kC) ^ 2 + (dH / kH) ^ 2)

/-! Transcriptions of the algorithm descriptions of spec.md, written for the
refinement claims C3 and C4 and compared with the source embeddings above. -/

/-- Transcription of the sRGB gamma decoding sentence of spec.md section 4.1:
for c above 0.04045 use ((c + 0.055) / 1.055) to the power 2.4, else
c / 12.92. -/
noncomputable def srgbDecodeSpec (c : ℝ) : ℝ :=
  if c > 0.04045 then ((c + 0.055) / 1.055) ^ (2.4 : ℝ) else c / 12.92

/-- Transcription of the CIE nonlinearity sentence of spec.md section 4.1:
cube root for t above 0.008856, else 7.787 t + 16 / 116. -/
noncomputable def cieFSpec (t : ℝ) : ℝ :=
  if t > 0.008856 then t ^ ((1 : ℝ) / 3) else 7.787 * t + 16 / 116

/-- Transcription of spec.md section 4.1: normalize each channel, gamma
decode, apply the standard sRGB to XYZ matrix, divide by the D65 white
point (0.95047, 1.0, 1.08883), apply the nonlinearity, and form
L = 116 fy - 16, a = 500 (fx - fy), b = 200 (fy - fz). -/
noncomputable def rgb_to_lab_spec (rgb : RGB) : ℝ × ℝ × ℝ :=
  let r := srgbDecodeSpec ((rgb.1 : ℝ) / 255.0)
  let g := srgbDecodeSpec ((rgb.2.1 : ℝ) / 255.0)
  let b := srgbDecodeSpec ((rgb.2.2 : ℝ) / 255.0)
  let fx := cieFSpec ((r * 0.4124564 + g * 0.3575761 + b * 0.1804375) / 0.95047)
  let fy := cieFSpec ((r * 0.2126729 + g * 0.7151522 + b * 0.0721750) / 1.0)
  let fz := cieFSpec ((r * 0.0193339 + g * 0.1191920 + b * 0.9503041) / 1.08883)
  (116 * fy - 16, 500 * (fx - fy), 200 * (fy - fz))

/-- Transcription of spec.md section 4.2: chroma values, dL, dC, the hue
component dH = sqrt of max 0 (da2 + db2 - dC2), combined with unit weights. -/
noncomputable def ciede2000SimplifiedSpec (lab1 lab2 : ℝ × ℝ × ℝ) : ℝ :=
  let C1 := Real.sqrt (lab1.2.1 ^ 2 + lab1.2.2 ^ 2)
  let C2 := Real.sqrt (lab2.2.1 ^ 2 + lab2.2.2 ^ 2)
  let dL := lab2.1 - lab1.1
  let dC := C2 - C1
  let da := lab2.2.1 - lab1.2.1
  let db := lab2.2.2 - lab1.2.2
  let dH := Real.sqrt (max 0 (da ^ 2 + db ^ 2 - dC ^ 2))
  Real.sqrt (dL ^ 2 + dC ^ 2 + dH ^ 2)

/-- C3: for every 8-bit RGB triple the source conversion _rgb_to_lab
computes exactly the algorithm stated in the spec (gamma decoding, sRGB
matrix, D65 white point, CIE nonlinearity, LAB combination). The embedding
is a total function, matching the no-failure-modes part of the claim. -/
theorem C3_rgb_to_lab_matches_spec (r g b : ℕ)
    (hr : r ≤ 255) (hg : g ≤ 255) (hb : b ≤ 255) :
    rgb_to_lab (r, g, b) = rgb_to_lab_spec (r, g, b) := by
  simp only [rgb_to_lab, rgb_to_lab_spec, gamma_correct, srgbDecodeSpec,
    labF, cieFSpec]
  norm_num

/-- Closed instance of C3 at the input (10, 128, 255). -/
theorem C3_rgb_to_lab_matches_spec_witness :
    10 ≤ 255 ∧ 128 ≤ 255 ∧ 255 ≤ 255 ∧
    rgb_to_lab (10, 128, 255) = rgb_to_lab_spec (10, 128, 255) :=
  ⟨by decide, by decide, by decide,
    C3_rgb_to_lab_matches_spec 10 128 255 (by decide) (by decide) (by decide)⟩

/-- C4: for every pair of LAB triples the source metric _delta_e_ciede2000
equals exactly the deliberately simplified formula stated in the spec
(chroma difference, orthogonal hue component with the max 0 guard, unit
weights), with the kL = kC = kH = 1.0 divisions of the source collapsing to
the unit-weight combination. -/
theorem C4_delta_e_ciede2000_is_simplified_formula (lab1 lab2 : ℝ × ℝ × ℝ) :
    delta_e_ciede2000 lab1 lab2 = ciede2000SimplifiedSpec lab1 lab2 := by
  simp only [delta_e_ciede2000, ciede2000SimplifiedSpec]
  norm_num

/-! Accelerated-backend failure handling (claim C1). -/

/-- Raster of 8-bit RGB pixels, row major, as produced by np.array on an
RGB PIL image. -/
abbrev Raster : Type := List (List RGB)

/-- The names bound at module level in src/color_mapping.py: the imports of
lines 7-11 (the logging import of line 9 is commented out), the conditional
fast_dither import and flag of lines 13-20, and the class and the two
module functions. A name missing from this list and from the Python
builtins raises NameError when evaluated. -/
def moduleGlobalNames : List String :=
  ["np", "Image", "Tuple", "List", "Dict", "colorsys",
   "fast_dither", "FAST_DITHER_AVAILABLE",
   "SevenColorMapper", "analyze_image_colors", "create_color_comparison"]

/-- Python exceptions relevant to the dispatch of
quantize_image_advanced_dithering. -/
inductive PyExc : Type
  | nameError (missing : String)
  | backendExc (msg : String)
deriving DecidableEq

/-- Evaluation of the expression logging.error(msg) at line 377: the name
logging is resolved in the module globals (it is not a Python builtin);
when it is unbound the evaluation itself raises NameError. -/
def logErrorCall (_msg : String) : Except PyExc Unit :=
  if moduleGlobalNames.contains ("logging") then Except.ok ()
  else Except.error (PyExc.nameError ("logging"))

/-- The backend dispatch of quantize_image_advanced_dithering
(lines 356-381): fastOutcome models the configured fast ditherer — none
when self.fast_ditherer is None, some (ok out) when the Cython call
returns, some (error e) when it raises; pythonPath models the result of the
Python fallback implementation of lines 380-482. The except handler of
lines 376-378 first evaluates logging.error and only then falls through to
the Python version. -/
def quantizeAdvancedDispatch (fastOutcome : Option (Except String Raster))
    (pythonPath : Raster) : Except PyExc Raster :=
  match fastOutcome with
  | none => Except.ok pythonPath
  | some (Except.ok out) => Except.ok out
  | some (Except.error e) =>
    match logErrorCall ("Fast Cython dithering failed: " ++ e
        ++ ", falling back to Python") with
    | Except.ok _ => Except.ok pythonPath
    | Except.error exc => Except.error exc

/-- C1 is a code bug: the name logging is not bound in the module (line 9,
which would import it, is commented out), so when the configured fast backend
raises, the except handler of lines 376-378 raises NameError instead of
logging and falling back; the failure is propagated to the caller rather
than recovered, contradicting the fallback comment of line 378 and the
docstring of lines 335-344. -/
theorem C1_fast_dither_failure_propagates_name_error :
    moduleGlobalNames.contains ("logging") = false ∧
    ∀ (e : String) (pythonPath : Raster),
      quantizeAdvancedDispatch (some (Except.error e)) pythonPath
        = Except.error (PyExc.nameError ("logging")) := by
  refine ⟨by decide, fun e pythonPath => ?_⟩
  simp only [quantizeAdvancedDispatch, logErrorCall]
  rw [if_neg (by decide)]

/-! quantize_image (lines 242-288, claim C2). -/

/-- Destructuring of the matcher result (line 269 unpacks the returned
triple). A none result never occurs because the palette is a fixed
nonempty list; the total default (0, 0, 0) happens to be the BLACK palette
value, keeping the embedding total. -/
def rgbOfMatch (o : Option Entry) : RGB :=
  match o with
  | some e => e.2.1
  | none => (0, 0, 0)

/-- Euclidean RGB distance of line 281: np.sqrt of the summed squared
channel differences, with the subtraction taken over the integers. -/
noncomputable def simpleDistance (rgb p : RGB) : ℝ :=
  Real.sqrt ((((rgb.1 : ℤ) - (p.1 : ℤ) : ℤ) : ℝ) ^ 2
    + (((rgb.2.1 : ℤ) - (p.2.1 : ℤ) : ℤ) : ℝ) ^ 2
    + (((rgb.2.2 : ℤ) - (p.2.2 : ℤ) : ℤ) : ℝ) ^ 2)

/-- One iteration of the simple-method scan (lines 279-284): strict-minimum
update against a running minimum started at float infinity. -/
noncomputable def simpleScanStep (rgb : RGB) (acc : WithTop ℝ × RGB)
    (p : String × RGB) : WithTop ℝ × RGB :=
  if (simpleDistance rgb p.2 : WithTop ℝ) < acc.1 then
    ((simpleDistance rgb p.2 : WithTop ℝ), p.2)
  else acc

/-- The simple RGB-distance nearest color of lines 273-286, with
closest_rgb initialized to (0, 0, 0) at line 277. -/
noncomputable def simpleClosestRgb (rgb : RGB) : RGB :=
  (einkColors.foldl (simpleScanStep rgb) ((⊤ : WithTop ℝ), (0, 0, 0))).2

/-- Per-pixel work of quantize_image: the perceptual branch of lines
264-270 calls the cached matcher with the default flag; every other method
string takes the simple branch of lines 271-286. -/
noncomputable def quantPixel {L D : Type} [LinearOrder D] (toLab : RGB → L)
    (d2000 d76 : L → L → D) (method : String) (rgb : RGB) : RGB :=
  if method = "perceptual" then
    rgbOfMatch (findClosest toLab d2000 d76 rgb true)
  else simpleClosestRgb rgb

/-- quantize_image (lines 242-288): height and width are taken from the
shape of the input array, the output array is filled pixel by pixel. -/
noncomputable def quantize_image {L D : Type} [LinearOrder D]
    (toLab : RGB → L) (d2000 d76 : L → L → D) (method : String)
    (img : Raster) : Raster :=
  let h := img.length
  let w := (img.headD []).length
  (List.range h).map (fun y =>
    (List.range w).map (fun x =>
      quantPixel toLab d2000 d76 method ((img.getD y []).getD x (0, 0, 0))))

/-- Folds preserve a predicate when every step taken on a list element
preserves it. -/
theorem foldlPreserveMem {α β : Type} (P : α → Prop) (f : α → β → α)
    (l : List β) : ∀ (a : α), (∀ a b, b ∈ l → P a → P (f a b)) → P a →
      P (l.foldl f a) := by
  induction l with
  | nil => intro a _ ha; exact ha
  | cons b t ih =>
    intro a hstep ha
    exact ih (f a b)
      (fun a c hc hPa => hstep a c (List.mem_cons_of_mem _ hc) hPa)
      (hstep a b (List.mem_cons_self _ _) ha)

theorem einkColorList_rgb_mem {L : Type} (toLab : RGB → L) :
    ∀ ent ∈ einkColorList toLab, ent.2.1 ∈ paletteRGBs := by
  intro ent hent
  simp only [einkColorList, List.mem_map] at hent
  obtain ⟨p, hp, rfl⟩ := hent
  exact List.mem_map.2 ⟨p, hp, rfl⟩

theorem scanFold_rgbOfMatch_mem {L D : Type} [LinearOrder D]
    (toLab : RGB → L) (delta : L → D) :
    rgbOfMatch (((einkColorList toLab).foldl (scanStep delta)
      ((⊤ : WithTop D), none)).2) ∈ paletteRGBs := by
  have key := foldlPreserveMem
    (fun acc : WithTop D × Option Entry =>
      ∀ e, acc.2 = some e → e.2.1 ∈ paletteRGBs)
    (scanStep delta) (einkColorList toLab) ((⊤ : WithTop D), none)
    (fun acc ent hent hacc => by
      intro e he
      simp only [scanStep] at he
      split at he
      · cases Option.some.inj he
        exact einkColorList_rgb_mem toLab ent hent
      · exact hacc e he)
    (fun e he => by cases he)
  cases h : ((einkColorList toLab).foldl (scanStep delta)
      ((⊤ : WithTop D), none)).2 with
  | none => decide
  | some e => exact key e h

theorem findClosestDirect_rgb_mem {L D : Type} [LinearOrder D]
    (toLab : RGB → L) (d2000 d76 : L → L → D) (rgb : RGB) (useC : Bool) :
    rgbOfMatch (findClosestDirect toLab d2000 d76 rgb useC) ∈ paletteRGBs := by
  simp only [findClosestDirect]
  exact scanFold_rgbOfMatch_mem toLab _

theorem findClosest_rgb_mem {L D : Type} [LinearOrder D]
    (toLab : RGB → L) (d2000 d76 : L → L → D) (rgb : RGB) (useC : Bool) :
    rgbOfMatch (findClosest toLab d2000 d76 rgb useC) ∈ paletteRGBs := by
  simp only [findClosest]
  split
  · exact findClosestDirect_rgb_mem toLab d2000 d76 (alignKey rgb) true
  · exact findClosestDirect_rgb_mem toLab d2000 d76 rgb useC

theorem simpleClosestRgb_mem (rgb : RGB) : simpleClosestRgb rgb ∈ paletteRGBs := by
  refine foldlPreserveMem (fun acc : WithTop ℝ × RGB => acc.2 ∈ paletteRGBs)
    (simpleScanStep rgb) einkColors ((⊤ : WithTop ℝ), (0, 0, 0))
    (fun acc p hp hacc => ?_) (by decide)
  simp only [simpleScanStep]
  split
  · exact List.mem_map.2 ⟨p, hp, rfl⟩
  · exact hacc

theorem quantPixel_mem {L D : Type} [LinearOrder D] (toLab : RGB → L)
    (d2000 d76 : L → L → D) (method : String) (rgb : RGB) :
    quantPixel toLab d2000 d76 method rgb ∈ paletteRGBs := by
  simp only [quantPixel]
  split
  · exact findClosest_rgb_mem toLab d2000 d76 rgb true
  · exact simpleClosestRgb_mem rgb

/-- C2: for every input raster whose rows all have the nominal width (the
rectangular shape np.array produces from an RGB image), the output of
quantize_image has the same height and width, and every output pixel is
exactly one of the seven palette RGB values. Stated for every method
string: the perceptual branch and the simple branch are both covered. -/
theorem C2_quantize_image_palette_membership_and_shape {L D : Type}
    [LinearOrder D] (toLab : RGB → L) (d2000 d76 : L → L → D)
    (method : String) (img : Raster)
    (hrect : ∀ row ∈ img, row.length = (img.headD []).length) :
    (quantize_image toLab d2000 d76 method img).length = img.length ∧
    (∀ row ∈ quantize_image toLab d2000 d76 method img,
      row.length = (img.headD []).length) ∧
    (∀ row ∈ quantize_image toLab d2000 d76 method img,
      ∀ p ∈ row, p ∈ paletteRGBs) := by
  refine ⟨by simp [quantize_image], ?_, ?_⟩
  · intro row hrow
    simp only [quantize_image, List.mem_map] at hrow
    obtain ⟨y, _, rfl⟩ := hrow
    simp
  · intro row hrow p hp
    simp only [quantize_image, List.mem_map] at hrow
    obtain ⟨y, _, rfl⟩ := hrow
    simp only [List.mem_map] at hp
    obtain ⟨x, _, rfl⟩ := hp
    exact quantPixel_mem toLab d2000 d76 method _

/-- Closed instance of C2 on a concrete 2 by 1 raster. -/
theorem C2_quantize_image_palette_membership_and_shape_witness :
    (∀ row ∈ [[((10 : ℕ), (20 : ℕ), (30 : ℕ))], [(200, 100, 0)]],
      row.length = ([[((10 : ℕ), (20 : ℕ), (30 : ℕ))], [(200, 100, 0)]].headD []).length) ∧
    (∀ row ∈ quantize_image (fun rgb => rgb) (fun _ _ => (0 : ℚ))
        (fun _ _ => (0 : ℚ)) ("perceptual")
        [[(10, 20, 30)], [(200, 100, 0)]],
      ∀ p ∈ row, p ∈ paletteRGBs) :=
  ⟨by decide,
    (C2_quantize_image_palette_membership_and_shape (fun rgb => rgb)
      (fun _ _ => (0 : ℚ)) (fun _ _ => (0 : ℚ)) ("perceptual")
      [[(10, 20, 30)], [(200, 100, 0)]] (by decide)).2.2⟩

/-! Error-diffusion ditherer: the Python fallback path of
quantize_image_advanced_dithering (lines 380-482), claims C5, C7, C8.
The float working buffer is modelled with rational values; the nearest
color matcher called at line 449 is passed as a function parameter, so that
the loop structure is shared by every matcher, in particular by the
instantiation with the cached perceptual matcher of the source. -/

/-- Floating point RGB working value. -/
abbrev Pix : Type := ℚ × ℚ × ℚ

/-- The float working buffer img_array. -/
abbrev Buffer : Type := List (List Pix)

/-- np.clip(v, 0, 255) on one channel (lines 441 and 472). -/
def clampQ (q : ℚ) : ℚ := min (max q 0) 255

/-- np.clip on an RGB working value, channel by channel. -/
def clampPix (p : Pix) : Pix := (clampQ p.1, clampQ p.2.1, clampQ p.2.2)

/-- astype(int) on a clamped working value (line 441): truncation toward
zero equals the floor on the clamped nonnegative channels. -/
def floorPix (p : Pix) : RGB := (⌊p.1⌋.toNat, ⌊p.2.1⌋.toNat, ⌊p.2.2⌋.toNat)

/-- Channelwise error of line 457: working value minus chosen palette
color. -/
def subPix (p : Pix) (c : RGB) : Pix :=
  (p.1 - (c.1 : ℚ), p.2.1 - (c.2.1 : ℚ), p.2.2 - (c.2.2 : ℚ))

/-- Buffer read img_array[y, x], with an out-of-range default that is never
used by the loop because every access is bounds checked. -/
def getPix (b : Buffer) (y x : ℕ) : Pix := (b.getD y []).getD x (0, 0, 0)

/-- Buffer write img_array[y, x] = v. -/
def setPix (b : Buffer) (y x : ℕ) (v : Pix) : Buffer :=
  b.set y ((b.getD y []).set x v)

/-- Output raster read. -/
def getOut (o : Raster) (y x : ℕ) : RGB := (o.getD y []).getD x (0, 0, 0)

/-- Output raster write output_array[y, x] = closest_rgb (line 454). -/
def setOut (o : Raster) (y x : ℕ) (v : RGB) : Raster :=
  o.set y ((o.getD y []).set x v)

/-- The weighted error addition followed by the immediate clamp
(lines 470-472). -/
def addErr (p : Pix) (err : Pix) (wt : ℚ) : Pix :=
  clampPix (p.1 + err.1 * wt, p.2.1 + err.2.1 * wt, p.2.2 + err.2.2 * wt)

/-- The Floyd-Steinberg kernel of lines 393-398: offsets (dx, dy) with
weights 7/16, 3/16, 5/16, 1/16. -/
def fsKernel : List (ℤ × ℤ × ℚ) :=
  [(1, 0, 7/16), (-1, 1, 3/16), (0, 1, 5/16), (1, 1, 1/16)]

/-- The Jarvis-Judice-Ninke kernel of lines 399-405. -/
def jjnKernel : List (ℤ × ℤ × ℚ) :=
  [(1, 0, 7/48), (2, 0, 5/48),
   (-2, 1, 3/48), (-1, 1, 5/48), (0, 1, 7/48), (1, 1, 5/48), (2, 1, 3/48),
   (-2, 2, 1/48), (-1, 2, 3/48), (0, 2, 5/48), (1, 2, 3/48), (2, 2, 1/48)]

/-- The neighbor x coordinate of lines 461-465: x + dx, replaced by x - dx
on right-to-left rows (odd y). -/
def neighborX (y x : ℕ) (dx : ℤ) : ℤ :=
  if y % 2 = 1 then (x : ℤ) - dx else (x : ℤ) + dx

/-- Distribution of the error to one kernel neighbor (lines 460-472):
compute the mirrored target coordinate, check bounds, add the weighted
error and clamp immediately. -/
def distributeOne (w h : ℕ) (y x : ℕ) (err : Pix) (buf : Buffer)
    (k : ℤ × ℤ × ℚ) : Buffer :=
  let nx := neighborX y x k.1
  let ny := (y : ℤ) + k.2.1
  if 0 ≤ nx ∧ nx < (w : ℤ) ∧ 0 ≤ ny ∧ ny < (h : ℤ) then
    setPix buf ny.toNat nx.toNat
      (addErr (getPix buf ny.toNat nx.toNat) err k.2.2)
  else buf

/-- The per-pixel body of the loop (lines 439-474): read the current
working value clamped and truncated to an integer RGB, choose the nearest
palette color through the matcher m (the per-call memo dict of lines
443-451 caches a pure function and is semantically transparent), write the
output pixel, and distribute the residual error over the kernel. -/
def ditherStep (m : RGB → RGB) (kernel : List (ℤ × ℤ × ℚ)) (w h : ℕ)
    (st : Buffer × Raster) (yx : ℕ × ℕ) : Buffer × Raster :=
  let y := yx.1
  let x := yx.2
  let currentRGB := floorPix (clampPix (getPix st.1 y x))
  let closest := m currentRGB
  let out := setOut st.2 y x closest
  let err := subPix (getPix st.1 y x) closest
  let buf := kernel.foldl (fun b k => distributeOne w h y x (err) b k) st.1
  (buf, out)

/-- The serpentine x range of lines 433-437: left to right on even rows,
right to left on odd rows. -/
def xRange (w y : ℕ) : List ℕ :=
  if y % 2 = 0 then List.range w else (List.range w).reverse

/-- The positions visited by the double loop of lines 422-474, in order. -/
def ditherPositions (w h : ℕ) : List (ℕ × ℕ) :=
  (List.range h).flatMap (fun y => (xRange w y).map (fun x => (y, x)))

/-- The full serpentine error-diffusion pass. -/
def ditherLoop (m : RGB → RGB) (kernel : List (ℤ × ℤ × ℚ)) (w h : ℕ)
    (init : Buffer × Raster) : Buffer × Raster :=
  (ditherPositions w h).foldl (ditherStep m kernel w h) init

/-- The all-zero output array of line 384. -/
def zeroRaster (w h : ℕ) : Raster :=
  List.replicate h (List.replicate w ((0, 0, 0) : RGB))

/-- np.array(image, dtype=np.float32) at line 352: integer pixels become
float working values. -/
def pixOfRGB (c : RGB) : Pix := ((c.1 : ℚ), (c.2.1 : ℚ), (c.2.2 : ℚ))

/-- The initial float working buffer. -/
def bufferOfRaster (img : Raster) : Buffer :=
  img.map (fun row => row.map pixOfRGB)

/-- The Python fallback of quantize_image_advanced_dithering
(lines 380-482): the simple method delegates to quantize_image at line 388
(passed here as a function parameter to keep the pass executable), the
kernel is selected from the method string (lines 391-410, default
Floyd-Steinberg), and the serpentine error-diffusion loop produces the
output raster. -/
def quantize_image_advanced_dithering_python (m : RGB → RGB)
    (simpleFallback : Raster → Raster) (method : String) (img : Raster) :
    Raster :=
  let h := img.length
  let w := (img.headD []).length
  if method = "simple" then simpleFallback img
  else
    let kernel :=
      if method = "floyd_steinberg_7color" then fsKernel
      else if method = "jarvis_judice_ninke_7color" then jjnKernel
      else fsKernel
    (ditherLoop m kernel w h (bufferOfRaster img, zeroRaster w h)).2

/-! Claim C5: the working buffer stays inside the 8-bit range. -/

/-- One working channel lies in the closed interval 0 to 255. -/
abbrev chanInRange (q : ℚ) : Prop := 0 ≤ q ∧ q ≤ 255

/-- One working value lies in range on all channels. -/
abbrev pixInRange (p : Pix) : Prop :=
  chanInRange p.1 ∧ chanInRange p.2.1 ∧ chanInRange p.2.2

/-- Every value of the working buffer lies in range. -/
abbrev bufInRange (b : Buffer) : Prop := ∀ row ∈ b, ∀ p ∈ row, pixInRange p

theorem clampQ_inRange (q : ℚ) : chanInRange (clampQ q) :=
  ⟨le_min (le_max_right q 0) (by norm_num), min_le_right _ _⟩

theorem clampPix_inRange (p : Pix) : pixInRange (clampPix p) :=
  ⟨clampQ_inRange p.1, clampQ_inRange p.2.1, clampQ_inRange p.2.2⟩

theorem addErr_inRange (p err : Pix) (wt : ℚ) : pixInRange (addErr p err wt) :=
  clampPix_inRange _

theorem getD_mem_or_default {α : Type} (l : List α) (n : ℕ) (d : α) :
    l.getD n d ∈ l ∨ l.getD n d = d := by
  by_cases h : n < l.length
  · left
    rw [List.getD_eq_getElem l d h]
    exact l.getElem_mem h
  · right
    exact List.getD_eq_default l d (by omega)

theorem setPix_inRange (b : Buffer) (y x : ℕ) (v : Pix)
    (hb : bufInRange b) (hv : pixInRange v) : bufInRange (setPix b y x v) := by
  intro row hrow p hp
  rcases List.mem_or_eq_of_mem_set hrow with h | rfl
  · exact hb row h p hp
  · rcases List.mem_or_eq_of_mem_set hp with h2 | rfl
    · rcases getD_mem_or_default b y [] with h3 | h3
      · exact hb _ h3 p h2
      · rw [h3] at h2
        cases h2
    · exact hv

theorem distributeOne_inRange (w h y x : ℕ) (err : Pix) (buf : Buffer)
    (k : ℤ × ℤ × ℚ) (hb : bufInRange buf) :
    bufInRange (distributeOne w h y x err buf k) := by
  simp only [distributeOne]
  split
  · exact setPix_inRange _ _ _ _ hb (addErr_inRange _ _ _)
  · exact hb

theorem ditherStep_inRange (m : RGB → RGB) (kernel : List (ℤ × ℤ × ℚ))
    (w h : ℕ) (st : Buffer × Raster) (yx : ℕ × ℕ)
    (hb : bufInRange st.1) : bufInRange (ditherStep m kernel w h st yx).1 := by
  simp only [ditherStep]
  exact foldlPreserveMem bufInRange _ kernel st.1
    (fun b k _ hbk => distributeOne_inRange w h yx.1 yx.2 _ b k hbk) hb

/-- C5: the error-diffusion working buffer is clamped into the 8-bit range
immediately after every weighted error addition (first conjunct: addErr,
the embedding of lines 470-472, always lands in range), each per-pixel
step preserves the in-range invariant of the whole buffer (second
conjunct), and hence along the whole pass, started from the in-range
integer image of line 352, every value read from the working buffer lies
in 0 to 255 (third conjunct). All the functions involved are total, so no
exception is possible in the embedding. -/
theorem C5_dither_buffer_clamped_in_range (m : RGB → RGB)
    (kernel : List (ℤ × ℤ × ℚ)) (w h : ℕ) (init : Buffer × Raster)
    (hin : bufInRange init.1) :
    (∀ (p err : Pix) (wt : ℚ), pixInRange (addErr p err wt)) ∧
    (∀ (st : Buffer × Raster) (yx : ℕ × ℕ), bufInRange st.1 →
      bufInRange (ditherStep m kernel w h st yx).1) ∧
    bufInRange (ditherLoop m kernel w h init).1 := by
  refine ⟨addErr_inRange, ditherStep_inRange m kernel w h, ?_⟩
  exact foldlPreserveMem (fun st : Buffer × Raster => bufInRange st.1)
    (ditherStep m kernel w h) (ditherPositions w h) init
    (fun st yx _ hst => ditherStep_inRange m kernel w h st yx hst) hin

/-- Closed instance of C5 on a concrete 1 by 1 buffer. -/
theorem C5_dither_buffer_clamped_in_range_witness :
    bufInRange [[((200 : ℚ), (0 : ℚ), (255 : ℚ))]] ∧
    bufInRange (ditherLoop (fun _ => (0, 0, 0)) fsKernel 1 1
      ([[(200, 0, 255)]], [[(0, 0, 0)]])).1 :=
  ⟨by decide,
    (C5_dither_buffer_clamped_in_range (fun _ => (0, 0, 0)) fsKernel 1 1
      ([[(200, 0, 255)]], [[(0, 0, 0)]]) (by decide)).2.2⟩

/-! Claim C7: serpentine scan and mirrored kernel offsets. -/

/-- Position of the pixel (y, x) in the serpentine visiting order: all of
row y comes after the y * w pixels of the earlier rows, and within the row
the offset is x on left-to-right rows and w - 1 - x on right-to-left
rows. -/
def serpIdx (w y x : ℕ) : ℕ :=
  y * w + (if y % 2 = 0 then x else w - 1 - x)

/-- A pixel on a strictly later row, or on the same row at a strictly later
within-row offset, has a strictly larger serpentine index. -/
theorem serpIdx_lt_of_later (w y x ny nx : ℕ) (hxw : x < w) (hnxw : nx < w)
    (h : y < ny ∨ (y = ny ∧
      (if y % 2 = 0 then x else w - 1 - x)
        < (if ny % 2 = 0 then nx else w - 1 - nx))) :
    serpIdx w y x < serpIdx w ny nx := by
  simp only [serpIdx]
  rcases h with h | ⟨rfl, h⟩
  · have hmul : (y + 1) * w ≤ ny * w := Nat.mul_le_mul_right w h
    rw [Nat.succ_mul] at hmul
    split_ifs <;> omega
  · omega

/-- C7: the scan direction alternates exactly every row (even rows are
scanned left to right, odd rows right to left, first conjunct), the
horizontal kernel offset is mirrored to x - dx exactly on odd rows (second
conjunct), and for both kernels of the source every in-bounds error
recipient sits strictly later in the serpentine visiting order than the
pixel that emits the error, so error always propagates toward
not-yet-visited pixels (third conjunct). -/
theorem C7_serpentine_scan_and_mirrored_offsets :
    (∀ w y : ℕ, (y % 2 = 0 → xRange w y = List.range w) ∧
      (y % 2 = 1 → xRange w y = (List.range w).reverse)) ∧
    (∀ (y x : ℕ) (dx : ℤ),
      (y % 2 = 1 → neighborX y x dx = (x : ℤ) - dx) ∧
      (y % 2 = 0 → neighborX y x dx = (x : ℤ) + dx)) ∧
    (∀ kernel : List (ℤ × ℤ × ℚ), kernel = fsKernel ∨ kernel = jjnKernel →
      ∀ k ∈ kernel, ∀ w h y x : ℕ, x < w → y < h →
        0 ≤ neighborX y x k.1 → neighborX y x k.1 < (w : ℤ) →
        (y : ℤ) + k.2.1 < (h : ℤ) →
        serpIdx w y x
          < serpIdx w ((y : ℤ) + k.2.1).toNat (neighborX y x k.1).toNat) := by
  refine ⟨?_, ?_, ?_⟩
  · intro w y
    constructor <;> intro h <;> simp [xRange, h]
  · intro y x dx
    constructor <;> intro h <;> simp [neighborX, h]
  · rintro kernel (rfl | rfl) k hk w h y x hx hy h1 h2 h3 <;>
      fin_cases hk <;>
      refine serpIdx_lt_of_later _ _ _ _ _ hx
        (by simp only [neighborX] at h1 h2 ⊢; omega) ?_ <;>
      simp only [neighborX] at h1 h2 h3 ⊢ <;>
      split_ifs <;> omega

/-- Closed instance of C7: direction of rows 2 and 1 at width 3, a mirrored
offset on the odd row 1, and forward propagation of the bottom-left
Floyd-Steinberg neighbor of pixel (0, 2) at width 4. -/
theorem C7_serpentine_scan_and_mirrored_offsets_witness :
    xRange 3 2 = List.range 3 ∧
    xRange 3 1 = (List.range 3).reverse ∧
    neighborX 1 5 1 = (4 : ℤ) ∧
    serpIdx 4 0 2 < serpIdx 4 1 1 :=
  ⟨(C7_serpentine_scan_and_mirrored_offsets.1 3 2).1 (by decide),
   (C7_serpentine_scan_and_mirrored_offsets.1 3 1).2 (by decide),
   (C7_serpentine_scan_and_mirrored_offsets.2.1 1 5 1).1 (by decide),
   C7_serpentine_scan_and_mirrored_offsets.2.2 fsKernel (Or.inl rfl)
     ((-1 : ℤ), (1 : ℤ), (3/16 : ℚ))
     (List.mem_cons_of_mem _ (List.mem_cons_self _ _)) 4 2 0 2
     (by decide) (by decide) (by decide) (by decide) (by decide)⟩

/-! Claim C8: Scenario B of spec.md section 8, the mid-gray 2 by 1 image
under Floyd-Steinberg dithering against a two-color palette. -/

/-- Modelled from the spec: the 2-color BLACK and WHITE palette of
Scenario B, which does not exist in src/color_mapping.py (the source
hardcodes the 7-color palette); listed in the BLACK, WHITE order the
source uses for those two colors. -/
def bwPalette : List RGB := [(0, 0, 0), (255, 255, 255)]

/-- Squared Euclidean RGB distance over the integers. -/
def distSqRGB (a c : RGB) : ℤ :=
  ((a.1 : ℤ) - (c.1 : ℤ)) ^ 2 + ((a.2.1 : ℤ) - (c.2.1 : ℤ)) ^ 2
    + ((a.2.2 : ℤ) - (c.2.2 : ℤ)) ^ 2

/-- Modelled from the spec: the nearest-palette-color matcher restricted to
the two-color palette of Scenario B. The keep-first strict-minimum scan all
the matcher loops of the source use collapses, on a two-entry palette, to a
single strict comparison: WHITE wins exactly when it is strictly closer
than BLACK, otherwise the first entry BLACK is kept. The squared Euclidean
RGB distance stands in for the perceptual metric: on the gray working
values arising in this scenario both orderings agree, because every
distance involved is monotone in the gray level with the black-to-white
threshold near mid-range. -/
def bwMatcher (rgb : RGB) : RGB :=
  if distSqRGB rgb (255, 255, 255) < distSqRGB rgb (0, 0, 0)
  then (255, 255, 255) else (0, 0, 0)

set_option maxHeartbeats 2000000 in
/-- C8: the 2 by 1 all-mid-gray image dithered with the Floyd-Steinberg
kernel against the BLACK and WHITE palette comes out as WHITE then BLACK:
exactly one BLACK pixel and one WHITE pixel. The first pixel rounds up to
WHITE, the residual error -127 times 7/16 pushes the second working value
down to 1159/16, which truncates to 72 and rounds to BLACK. -/
theorem C8_midgray_two_pixel_floyd_steinberg_alternates :
    quantize_image_advanced_dithering_python bwMatcher (fun r => r)
        ("floyd_steinberg_7color") [[(128, 128, 128), (128, 128, 128)]]
      = [[(255, 255, 255), (0, 0, 0)]] ∧
    (quantize_image_advanced_dithering_python bwMatcher (fun r => r)
        ("floyd_steinberg_7color")
        [[(128, 128, 128), (128, 128, 128)]]).flatten.count ((0, 0, 0) : RGB)
      = 1 ∧
    (quantize_image_advanced_dithering_python bwMatcher (fun r => r)
        ("floyd_steinberg_7color")
        [[(128, 128, 128), (128, 128, 128)]]).flatten.count
        ((255, 255, 255) : RGB) = 1 := by
  have h0 : quantize_image_advanced_dithering_python bwMatcher (fun r => r)
      ("floyd_steinberg_7color") [[(128, 128, 128), (128, 128, 128)]]
      = (ditherLoop bwMatcher fsKernel 2 1
          (bufferOfRaster [[(128, 128, 128), (128, 128, 128)]],
           zeroRaster 2 1)).2 := rfl
  have h1 : ditherPositions 2 1 = [(0, 0), (0, 1)] := rfl
  have h2 : bufferOfRaster [[(128, 128, 128), (128, 128, 128)]]
      = [[((128 : ℚ), (128 : ℚ), (128 : ℚ)),
          ((128 : ℚ), (128 : ℚ), (128 : ℚ))]] := by
    norm_num [bufferOfRaster, pixOfRGB]
  have h3 : zeroRaster 2 1 = [[(0, 0, 0), (0, 0, 0)]] := rfl
  have hstepA : ditherStep bwMatcher fsKernel 2 1
      ([[((128 : ℚ), (128 : ℚ), (128 : ℚ)),
         ((128 : ℚ), (128 : ℚ), (128 : ℚ))]],
       [[(0, 0, 0), (0, 0, 0)]]) (0, 0)
      = ([[((128 : ℚ), (128 : ℚ), (128 : ℚ)),
           ((1159/16 : ℚ), (1159/16 : ℚ), (1159/16 : ℚ))]],
         [[(255, 255, 255), (0, 0, 0)]]) := by
    norm_num [ditherStep, distributeOne, neighborX, getPix, setPix, getOut,
      setOut, clampPix, clampQ, floorPix, subPix, addErr, bwMatcher,
      bwPalette, distSqRGB, fsKernel, List.foldl_cons, List.foldl_nil,
      Int.reduceToNat]
  have hstepB : ditherStep bwMatcher fsKernel 2 1
      ([[((128 : ℚ), (128 : ℚ), (128 : ℚ)),
         ((1159/16 : ℚ), (1159/16 : ℚ), (1159/16 : ℚ))]],
       [[(255, 255, 255), (0, 0, 0)]]) (0, 1)
      = ([[((128 : ℚ), (128 : ℚ), (128 : ℚ)),
           ((1159/16 : ℚ), (1159/16 : ℚ), (1159/16 : ℚ))]],
         [[(255, 255, 255), (0, 0, 0)]]) := by
    norm_num [ditherStep, distributeOne, neighborX, getPix, setPix, getOut,
      setOut, clampPix, clampQ, floorPix, subPix, addErr, bwMatcher,
      bwPalette, distSqRGB, fsKernel, List.foldl_cons, List.foldl_nil,
      Int.reduceToNat]
  have hmain : quantize_image_advanced_dithering_python bwMatcher (fun r => r)
      ("floyd_steinberg_7color") [[(128, 128, 128), (128, 128, 128)]]
      = [[(255, 255, 255), (0, 0, 0)]] := by
    rw [h0, ditherLoop, h1, h2, h3]
    simp only [List.foldl_cons, List.foldl_nil]
    rw [hstepA, hstepB]
  refine ⟨hmain, ?_, ?_⟩ <;> rw [hmain] <;> rfl

/-! Blue noise mode, quantize_image_blue_noise (lines 484-525), claim C9.
The global numpy random generator is modelled by an abstract state type S
with a seeding function and a draw function; np.random.seed(42) at line 499
replaces the incoming state by the seeded one, np.random.random() at line
518 draws one threshold and advances the state. -/

section BlueNoise

variable {S L D : Type} [LinearOrder D]

/-- The list of (distance, name, rgb) triples built at lines 506-511, in
palette order, with both LAB conversions recomputed per pixel exactly as
the source does. -/
def blueNoiseDistances (toLab : RGB → L) (delta : L → L → D) (rgb : RGB) :
    List (D × String × RGB) :=
  einkColors.map (fun p => (delta (toLab rgb) (toLab p.2), p.1, p.2))

/-- The Python tuple order used by distances.sort() at line 513: by
distance first, ties broken by the color name; the palette names are
pairwise distinct, so the third tuple component never gets compared. -/
def tupleLe (a b : D × String × RGB) : Bool :=
  decide (a.1 < b.1) || (decide (a.1 = b.1) && decide (a.2.1 ≤ b.2.1))

/-- Per-pixel choice of lines 503-523: sort the palette by distance, take
the closest and, when available, the second closest, draw one threshold
from the generator state, and pick the closest exactly when the threshold
is below 0.7. An empty sorted list cannot occur for the fixed 7-color
palette (Python would raise IndexError there); the embedding returns BLACK
in that unreachable branch to stay total. -/
def blueNoisePixel (toLab : RGB → L) (delta : L → L → D)
    (next : S → ℚ × S) (rgb : RGB) (s : S) : RGB × S :=
  let sorted := (blueNoiseDistances toLab delta rgb).mergeSort tupleLe
  let t := (next s).1
  let s2 := (next s).2
  match sorted with
  | [] => ((0, 0, 0), s2)
  | c :: rest =>
    let second := match rest with | [] => c | c2 :: _ => c2
    (if t < 7/10 then c.2.2 else second.2.2, s2)

/-- One row of the pass, threading the generator state pixel by pixel. -/
def blueNoiseRow (toLab : RGB → L) (delta : L → L → D) (next : S → ℚ × S)
    (row : List RGB) (s : S) : List RGB × S :=
  row.foldl (fun acc rgb =>
    ((acc.1 ++ [(blueNoisePixel toLab delta next rgb acc.2).1]),
     (blueNoisePixel toLab delta next rgb acc.2).2)) ([], s)

/-- quantize_image_blue_noise (lines 484-525): the incoming global
generator state s is replaced by the state seeded with 42 before any
threshold is drawn, then the pass visits the raster row by row in scan
order. -/
def quantize_image_blue_noise (seed : ℕ → S) (next : S → ℚ × S)
    (toLab : RGB → L) (delta : L → L → D) (img : Raster) (s : S) :
    Raster × S :=
  let s0 := seed 42
  img.foldl (fun acc row =>
    ((acc.1 ++ [(blueNoiseRow toLab delta next row acc.2).1]),
     (blueNoiseRow toLab delta next row acc.2).2)) (([] : Raster), s0)

end BlueNoise

/-- C9: blue-noise mode is deterministic: the incoming pseudo-random
generator state is overwritten with the fixed seed 42 before the pass
begins, so two runs on the same input image produce bit-for-bit identical
output rasters (and identical final generator states) whatever generator
states the two runs start from. Stated for every generator interface
(state type, seeding function, draw function), every LAB carrier and every
distance function, hence in particular for the numpy Mersenne Twister and
the metrics of the source. -/
theorem C9_blue_noise_deterministic {S L D : Type} [LinearOrder D]
    (seed : ℕ → S) (next : S → ℚ × S) (toLab : RGB → L)
    (delta : L → L → D) (img : Raster) (s1 s2 : S) :
    quantize_image_blue_noise seed next toLab delta img s1
      = quantize_image_blue_noise seed next toLab delta img s2 := rfl

end ColorMapping
